import Mathlib

/-!
Verification of the validator enode announce gossip engine
(consensus/istanbul/backend/announce.go) against its specification.

The Go code is shallowly embedded: Go maps become association lists with
explicit lookup / insert / prune operations, wall-clock time and the
pseudo-random draw become explicit `Nat` inputs, the peer-to-peer layer
becomes a list of emitted `Effect`s, and each message handler becomes a
pure function from a `BackendState` (plus the decoded message and ambient
inputs) to a new state, the emitted effects, and an optional error.
-/

namespace CeloAnnounce

/-- Validator identity (20-byte address in the source, modelled as `Nat`,
only equality is used). -/
abbrev Address := Nat

/-- Keccak-256 digest (modelled as `Nat`, only equality is used). -/
abbrev Hash := Nat

/-- Opaque byte string. -/
abbrev Bytes := List Nat

/-- Go source: `type encryptedEnode struct { DecrypterAddress common.Address;
EncryptedEnodeURL []byte }`. -/
structure encryptedEnode where
  DecrypterAddress : Address
  EncryptedEnodeURL : Bytes
deriving DecidableEq, Repr

/-- Go source: `type valEncryptedEnodes struct { ValAddress; EncryptedEnodes;
EnodeURLHash; Timestamp uint }` - the inner payload of an Announce message. -/
structure valEncryptedEnodes where
  ValAddress : Address
  EncryptedEnodes : List encryptedEnode
  EnodeURLHash : Hash
  Timestamp : Nat
deriving DecidableEq, Repr

/-- Go source: `type announceMsgCachedEntry struct { MsgTimestamp uint;
MsgPayload []byte }` - one entry of the announce cache. -/
structure announceMsgCachedEntry where
  MsgTimestamp : Nat
  MsgPayload : Bytes
deriving DecidableEq, Repr

/-- Go source: `AnnounceGossipTimestamp` - one entry of the regossip throttle
table `lastAnnounceGossiped`.  `timestamp` is wall clock in seconds. -/
structure AnnounceGossipTimestamp where
  enodeURLHash : Hash
  timestamp : Nat
  destAddressesHash : Hash
deriving DecidableEq, Repr

/-- Go source: `type announceVersion struct { ValAddress common.Address;
AnnounceMsgTimestamp uint }`. -/
structure announceVersion where
  ValAddress : Address
  AnnounceMsgTimestamp : Nat
deriving DecidableEq, Repr

/-- Modelled from the spec: `vet.AddressEntry{Node, Timestamp}` - the
validator-endpoint-table entry type lives in
consensus/istanbul/backend/internal/enodes, which is not among the shown
sources; the spec describes it as a (node, timestamp) record. -/
structure AddressEntry where
  Node : Nat
  Timestamp : Nat
deriving DecidableEq, Repr

/-! ### Association-list model of Go maps -/

/-- Lookup in an association list, the model of a read `m[k]` of a Go map. -/
def mapLookup {α : Type} : List (Nat × α) → Nat → Option α
  | [], _ => none
  | (k', v) :: rest, k => if k' = k then some v else mapLookup rest k

/-- Insert/overwrite in an association list, the model of `m[k] = v` on a Go
map. -/
def mapInsert {α : Type} : List (Nat × α) → Nat → α → List (Nat × α)
  | [], k, v => [(k, v)]
  | (k', v') :: rest, k, v =>
    if k' = k then (k, v) :: rest else (k', v') :: mapInsert rest k v

/-- Keep only the entries whose key satisfies `keep`, the model of the Go
`for k := range m { if !keep(k) { delete(m, k) } }` prune loops. -/
def mapPrune {α : Type} : List (Nat × α) → (Nat → Bool) → List (Nat × α)
  | [], _ => []
  | (k, v) :: rest, keep =>
    if keep k then (k, v) :: mapPrune rest keep else mapPrune rest keep

/-! ### Backend state, effects, errors -/

/-- The mutable state of the `Backend` touched by the announce subsystem:
the announce cache `cachedAnnounceMsgs`, the regossip throttle
`lastAnnounceGossiped`, the validator-endpoint table `valEnodeTable`, the
`coreStarted` flag and this node's own address. -/
structure BackendState where
  cachedAnnounceMsgs : List (Address × announceMsgCachedEntry)
  lastAnnounceGossiped : List (Address × AnnounceGossipTimestamp)
  valEnodeTable : List (Address × AddressEntry)
  coreStarted : Bool
  selfAddress : Address
deriving DecidableEq, Repr

/-- Outbound network activity of a handler: a multicast of an announce
payload, or a unicast reply to the peer being handled.  Payload wire
encoding is abstracted to the decoded content. -/
inductive Effect where
  | multicastAnnounce (payload : Bytes)
  | sendAnnounce (payload : Bytes)
  | sendGetAnnounces (valAddresses : List Address)
  | sendAnnounceVersions (versions : List announceVersion)
deriving DecidableEq, Repr

/-- Errors returned by the announce handlers (source:
errUnauthorizedAnnounceMessage, errOldAnnounceMessage, and the error of
enode.ParseV4 on a self-targeted entry). -/
inductive AnnErr where
  | errUnauthorizedAnnounceMessage
  | errOldAnnounceMessage
  | errEnodeParse
deriving DecidableEq, Repr

/-! ### Sorting and hashing of the destination-address list -/

/-- Insert into a sorted list (helper for `sortAddrs`). -/
def insertSorted (x : Nat) : List Nat → List Nat
  | [] => [x]
  | y :: ys => if x ≤ y then x :: y :: ys else y :: insertSorted x ys

/-- Model of `sort.Strings(destAddresses)`: the source sorts the
destination addresses by their hex string representation, which is an
injective key of the address, so any fixed total order preserves the
equality semantics of the hash below; we sort numerically. -/
def sortAddrs : List Nat → List Nat
  | [] => []
  | x :: xs => insertSorted x (sortAddrs xs)

/-- Cantor pairing, the injective combinator for `RLPHashAddrList`. -/
def natPair (a b : Nat) : Nat := (a + b) * (a + b + 1) / 2 + b

/-- Modelled from the spec: `istanbul.RLPHash` (Keccak-256 of the RLP
encoding, implemented outside the shown sources) applied to the sorted
destination-address list; idealized as an injective code, since the engine
uses the digest only for equality comparison. -/
def RLPHashAddrList : List Nat → Hash
  | [] => 0
  | x :: xs => natPair x (RLPHashAddrList xs) + 1

/-! ### The EncryptedEnodes scan of handleAnnounceMsg -/

/-- The scan loop of `handleAnnounceMsg` over `announcePayload.EncryptedEnodes`
(source lines 417-436): accumulates `destAddresses` and `processedAddresses`,
flags duplicate or not-in-validator-set entries, and parses a self-targeted
entry's ciphertext as this node's enode URL (placeholder encryption), failing
on a parse error.  `parseV4` models `enode.ParseV4`. -/
def scanEncryptedEnodes (selfAddress : Address) (regAndActiveVals : List Address)
    (parseV4 : Bytes → Option Nat) :
    List encryptedEnode → List Address → List Address → Bool → Option Nat →
      Except AnnErr (List Address × Bool × Option Nat)
  | [], destAddresses, _processedAddresses, dups, node =>
    .ok (destAddresses, dups, node)
  | ee :: rest, destAddresses, processedAddresses, dups, node =>
    if !(regAndActiveVals.contains ee.DecrypterAddress)
        || processedAddresses.contains ee.DecrypterAddress then
      scanEncryptedEnodes selfAddress regAndActiveVals parseV4 rest
        destAddresses processedAddresses true node
    else if ee.DecrypterAddress == selfAddress then
      match parseV4 ee.EncryptedEnodeURL with
      | none => .error .errEnodeParse
      | some n =>
        scanEncryptedEnodes selfAddress regAndActiveVals parseV4 rest
          (destAddresses ++ [ee.DecrypterAddress])
          (processedAddresses ++ [ee.DecrypterAddress]) dups (some n)
    else
      scanEncryptedEnodes selfAddress regAndActiveVals parseV4 rest
        (destAddresses ++ [ee.DecrypterAddress])
        (processedAddresses ++ [ee.DecrypterAddress]) dups node

/-- The flag computed by the scan loop in isolation: true exactly when some
entry has a `DecrypterAddress` that is outside the validator set or repeats
an earlier processed entry (source lines 419-423). -/
def hasDupsOrIrrelevant (regAndActiveVals : List Address) :
    List encryptedEnode → List Address → Bool
  | [], _ => false
  | ee :: rest, processedAddresses =>
    if !(regAndActiveVals.contains ee.DecrypterAddress)
        || processedAddresses.contains ee.DecrypterAddress then true
    else hasDupsOrIrrelevant regAndActiveVals rest
      (processedAddresses ++ [ee.DecrypterAddress])

/-! ### regossipAnnounce, handleAnnounceMsg, gossipAnnounce -/

/-- The probabilistic prune guard of `regossipAnnounce` (source line 495):
`(mrand.Int() % 100) <= 5`, with `randInt` the non-negative draw. -/
def pruneFires (randInt : Nat) : Bool := decide (randInt % 100 ≤ 5)

/-- The range of Go's `mrand.Int()` on 64-bit platforms: uniform over
`[0, 2^63)`. -/
def mrandIntRange : Nat := 2 ^ 63

/-- Number of draws in `[0, n)` on which the probabilistic prune guard of
`regossipAnnounce` fires. -/
def pruneFireCount (n : Nat) : Nat :=
  ((Finset.range n).filter (fun x => pruneFires x = true)).card

/-- The suppression condition of `regossipAnnounce` (source lines 477-484):
the throttle holds an entry for the sender with identical `enodeURLHash` and
`destAddressesHash` whose recorded time is less than 60 seconds
(one `time.Minute`) before `now`. -/
def throttleSuppresses
    (lastAnnounceGossiped : List (Address × AnnounceGossipTimestamp))
    (msgAddress : Address) (enodeURLHash destAddressesHash : Hash)
    (now : Nat) : Bool :=
  match mapLookup lastAnnounceGossiped msgAddress with
  | some lastGossipTs =>
    (lastGossipTs.enodeURLHash == enodeURLHash)
      && (lastGossipTs.destAddressesHash == destAddressesHash)
      && decide (now - lastGossipTs.timestamp < 60)
  | none => false

/-- Translation of `regossipAnnounce` (source lines 468-509): computes the
hash of the sorted destination addresses, suppresses the regossip when the
throttle condition above holds, otherwise multicasts the payload verbatim,
records the gossip in the throttle, and - when the 1-in-~20 random guard
fires - prunes the throttle and the validator-endpoint table to the current
validator set. -/
def regossipAnnounce (st : BackendState) (msgAddress : Address)
    (payload : Bytes) (announcePayload : valEncryptedEnodes)
    (regAndActiveVals : List Address) (destAddresses : List Address)
    (now : Nat) (randInt : Nat) : BackendState × List Effect :=
  let destAddressesHash := RLPHashAddrList (sortAddrs destAddresses)
  if throttleSuppresses st.lastAnnounceGossiped msgAddress
      announcePayload.EnodeURLHash destAddressesHash now then (st, [])
  else
    let st1 := { st with
                 lastAnnounceGossiped :=
                   mapInsert st.lastAnnounceGossiped msgAddress
                     ⟨announcePayload.EnodeURLHash, now, destAddressesHash⟩ }
    let st2 :=
      if pruneFires randInt then
        { st1 with
          lastAnnounceGossiped :=
            mapPrune st1.lastAnnounceGossiped
              (fun a => regAndActiveVals.contains a),
          valEnodeTable :=
            mapPrune st1.valEnodeTable
              (fun a => regAndActiveVals.contains a) }
      else st1
    (st2, [Effect.multicastAnnounce payload])

/-- The staleness condition of `handleAnnounceMsg` (source line 407): the
cache holds an entry for the sender whose `MsgTimestamp` is greater than or
equal to the payload timestamp. -/
def cachedIsNewerOrSame
    (cachedAnnounceMsgs : List (Address × announceMsgCachedEntry))
    (msgAddress : Address) (timestamp : Nat) : Bool :=
  match mapLookup cachedAnnounceMsgs msgAddress with
  | some cachedAnnounceMsgEntry =>
    decide (timestamp ≤ cachedAnnounceMsgEntry.MsgTimestamp)
  | none => false

/-- Translation of `handleAnnounceMsg` (source lines 371-465).  Decoding of
the outer signed envelope and signature recovery are modelled upstream: the
function receives the recovered sender `msgAddress` and the decoded inner
`announcePayload`; `payload` is the original wire payload that is cached and
regossiped verbatim.  Returns the new state, the emitted effects and an
optional error; every error return of the source happens before any state
write, which the translation mirrors by returning the input state there. -/
def handleAnnounceMsg (st : BackendState) (regAndActiveVals : List Address)
    (msgAddress : Address) (announcePayload : valEncryptedEnodes)
    (payload : Bytes) (parseV4 : Bytes → Option Nat) (now : Nat)
    (randInt : Nat) : BackendState × List Effect × Option AnnErr :=
  if !(regAndActiveVals.contains msgAddress) then
    (st, [], some .errUnauthorizedAnnounceMessage)
  else if cachedIsNewerOrSame st.cachedAnnounceMsgs msgAddress
      announcePayload.Timestamp then
    (st, [], some .errOldAnnounceMessage)
  else
    match (if st.coreStarted && regAndActiveVals.contains st.selfAddress then
            scanEncryptedEnodes st.selfAddress regAndActiveVals parseV4
              announcePayload.EncryptedEnodes [] [] false none
          else .ok ([], false, none)) with
    | .error e => (st, [], some e)
    | .ok (destAddresses, msgHasDupsOrIrrelevantEntries, node) =>
      let st1 :=
        match node with
        | some n =>
          { st with valEnodeTable :=
                      mapInsert st.valEnodeTable msgAddress
                        ⟨n, announcePayload.Timestamp⟩ }
        | none => st
      if msgHasDupsOrIrrelevantEntries then (st1, [], none)
      else
        let st2 := { st1 with
                     cachedAnnounceMsgs :=
                       mapPrune
                         (mapInsert st1.cachedAnnounceMsgs msgAddress
                           ⟨announcePayload.Timestamp, payload⟩)
                         (fun a => regAndActiveVals.contains a) }
        let r := regossipAnnounce st2 msgAddress payload announcePayload
            regAndActiveVals destAddresses now randInt
        (r.1, r.2, none)

/-- Translation of the cache-admission and multicast tail of `gossipAnnounce`
(source lines 297-314): after generating and signing its own announce, the
node stores it in the announce cache unconditionally - no comparison against
any cached timestamp - and multicasts it when it is itself in the
registered-or-active validator set.  `announcePayload` is the decoded inner
payload of the generated message and `payload` its signed wire form. -/
def gossipAnnounce (st : BackendState) (announcePayload : valEncryptedEnodes)
    (payload : Bytes) (regAndActiveVals : List Address) :
    BackendState × List Effect :=
  let st' := { st with
               cachedAnnounceMsgs :=
                 mapInsert st.cachedAnnounceMsgs announcePayload.ValAddress
                   ⟨announcePayload.Timestamp, payload⟩ }
  (st', if regAndActiveVals.contains st.selfAddress then
          [Effect.multicastAnnounce payload]
        else [])

/-! ### Version-exchange handlers -/

/-- The request condition of `handleAnnounceVersionsMsg` (source line 605):
the local cache either lacks an entry for the address or holds a strictly
smaller timestamp than the received one. -/
def cacheLacksOrOlder
    (cachedAnnounceMsgs : List (Address × announceMsgCachedEntry))
    (valAddress : Address) (timestamp : Nat) : Bool :=
  match mapLookup cachedAnnounceMsgs valAddress with
  | none => true
  | some cachedEntry => decide (cachedEntry.MsgTimestamp < timestamp)

/-- The request-list construction of `handleAnnounceVersionsMsg` (source
lines 597-608): an entry contributes its address when the address is in the
registered-or-active validator set and the local cache either lacks an entry
for it or holds a strictly smaller timestamp. -/
def announcesToRequestOf (cachedAnnounceMsgs : List (Address × announceMsgCachedEntry))
    (regAndActiveVals : List Address) : List announceVersion → List Address
  | [] => []
  | av :: rest =>
    if !(regAndActiveVals.contains av.ValAddress) then
      announcesToRequestOf cachedAnnounceMsgs regAndActiveVals rest
    else if cacheLacksOrOlder cachedAnnounceMsgs av.ValAddress
        av.AnnounceMsgTimestamp then
      av.ValAddress ::
        announcesToRequestOf cachedAnnounceMsgs regAndActiveVals rest
    else
      announcesToRequestOf cachedAnnounceMsgs regAndActiveVals rest

/-- Translation of `handleAnnounceVersionsMsg` (source lines 581-623).  The
source calls `rlp.DecodeBytes` and on failure only logs and falls through;
modelled from the spec: the decoder may leave a partially decoded slice in
`announceVersions` together with the error, so the handler receives the
(possibly partial) slice `announceVersions` and the error flag
`decodeFailed`, which the source ignores.  A GetAnnounces is sent to the
peer exactly when the request list is non-empty. -/
def handleAnnounceVersionsMsg (st : BackendState)
    (regAndActiveVals : List Address) (announceVersions : List announceVersion)
    (decodeFailed : Bool) : BackendState × List Effect × Option AnnErr :=
  let announcesToRequest :=
    announcesToRequestOf st.cachedAnnounceMsgs regAndActiveVals announceVersions
  if announcesToRequest.length > 0 then
    (st, [Effect.sendGetAnnounces announcesToRequest], none)
  else
    (st, [], none)

/-- Translation of `handleGetAnnounceVersionsMsg` (source lines 552-576):
the payload is never inspected; the handler replies with one
AnnounceVersions message holding one `announceVersion` record per cache
entry, pairing each cached address with its cached `MsgTimestamp`
(RLP encoding of the reply, which never fails on this type, is modelled
total). -/
def handleGetAnnounceVersionsMsg (st : BackendState) (payload : Bytes) :
    BackendState × List Effect × Option AnnErr :=
  let announceVersions := st.cachedAnnounceMsgs.map
    (fun p => ({ ValAddress := p.1, AnnounceMsgTimestamp := p.2.MsgTimestamp } :
      announceVersion))
  (st, [Effect.sendAnnounceVersions announceVersions], none)

/-! ### The announce loop frequency state machine -/

/-- Go source: `type AnnounceGossipFrequencyState int` with its three
constants. -/
inductive AnnounceGossipFrequencyState where
  | HighFreqBeforeFirstPeerState
  | HighFreqAfterFirstPeerState
  | LowFreqState
deriving DecidableEq, Repr

/-- Source constant `HighFreqTickerDuration = 1 * time.Minute`, in seconds. -/
def HighFreqTickerDuration : Nat := 60

/-- Source constant `LowFreqTickerDuration = 10 * time.Minute`, in seconds. -/
def LowFreqTickerDuration : Nat := 600

/-- The loop-local state of `announceThread` relevant to gossip ticks. -/
structure AnnounceLoopState where
  freqState : AnnounceGossipFrequencyState
  numGossipedMsgsInHighFreqAfterFirstPeerState : Nat
  currentAnnounceGossipTickerDuration : Nat
deriving DecidableEq, Repr

/-- One gossip tick of `announceThread` (source lines 104-134): the
frequency state is advanced first - `HighFreqBeforeFirstPeerState` leaves
when a peer is connected, `HighFreqAfterFirstPeerState` leaves when its tick
counter has reached 10 and increments the counter after the check,
`LowFreqState` switches the ticker period to 10 minutes on first entry -
and afterwards `gossipAnnounce` is launched unconditionally; the returned
Bool records that an announce was emitted on this tick. -/
def gossipTick (ls : AnnounceLoopState) (numPeers : Nat) :
    AnnounceLoopState × Bool :=
  (match ls.freqState with
   | .HighFreqBeforeFirstPeerState =>
     if numPeers > 0 then
       { ls with freqState := .HighFreqAfterFirstPeerState }
     else ls
   | .HighFreqAfterFirstPeerState =>
     { ls with
       freqState :=
         if ls.numGossipedMsgsInHighFreqAfterFirstPeerState ≥ 10 then
           .LowFreqState
         else .HighFreqAfterFirstPeerState,
       numGossipedMsgsInHighFreqAfterFirstPeerState :=
         ls.numGossipedMsgsInHighFreqAfterFirstPeerState + 1 }
   | .LowFreqState =>
     if ls.currentAnnounceGossipTickerDuration ≠ LowFreqTickerDuration then
       { ls with currentAnnounceGossipTickerDuration := LowFreqTickerDuration }
     else ls,
   true)

/-- Iterated gossip ticks with a fixed peer count. -/
def iterTicks (ls : AnnounceLoopState) (numPeers : Nat) : Nat → AnnounceLoopState
  | 0 => ls
  | n + 1 => (gossipTick (iterTicks ls numPeers n) numPeers).1

/-! ### Admission events and runs of the gossip engine -/

/-- One state-changing event of the gossip engine: handling a peer's
announce, or admitting this node's own generated announce. -/
inductive GossipEvent where
  | handleAnnounceEv (regAndActiveVals : List Address) (msgAddress : Address)
      (announcePayload : valEncryptedEnodes) (payload : Bytes)
      (parseV4 : Bytes → Option Nat) (now : Nat) (randInt : Nat)
  | gossipOwnEv (regAndActiveVals : List Address)
      (announcePayload : valEncryptedEnodes) (payload : Bytes)

/-- The state transition of one event (effects and errors discarded). -/
def gossipStep (st : BackendState) : GossipEvent → BackendState
  | .handleAnnounceEv regAndActiveVals msgAddress announcePayload payload
      parseV4 now randInt =>
    (handleAnnounceMsg st regAndActiveVals msgAddress announcePayload payload
      parseV4 now randInt).1
  | .gossipOwnEv regAndActiveVals announcePayload payload =>
    (gossipAnnounce st announcePayload payload regAndActiveVals).1

/-- A run of the gossip engine over a list of events. -/
def gossipRun (st : BackendState) : List GossipEvent → BackendState
  | [] => st
  | e :: rest => gossipRun (gossipStep st e) rest

/-- Recognizer for handle-announce events. -/
def isHandleAnnounceEv : GossipEvent → Bool
  | .handleAnnounceEv _ _ _ _ _ _ _ => true
  | .gossipOwnEv _ _ _ => false

/-- The address `a` has a cache entry after every step of the run. -/
def presentAlongRun (st : BackendState) (a : Address) : List GossipEvent → Bool
  | [] => true
  | e :: rest =>
    (mapLookup (gossipStep st e).cachedAnnounceMsgs a).isSome
      && presentAlongRun (gossipStep st e) a rest

/-! ### Lemmas about the association-list map model -/

theorem mapLookup_insert_self {α : Type} (m : List (Nat × α)) (k : Nat) (v : α) :
    mapLookup (mapInsert m k v) k = some v := by
  induction m with
  | nil => simp [mapInsert, mapLookup]
  | cons p rest ih =>
    obtain ⟨k', v'⟩ := p
    by_cases h : k' = k
    · simp [mapInsert, h, mapLookup]
    · simp [mapInsert, h, mapLookup, ih]

theorem mapLookup_insert_ne {α : Type} (m : List (Nat × α)) (k k' : Nat) (v : α)
    (h : k' ≠ k) : mapLookup (mapInsert m k v) k' = mapLookup m k' := by
  induction m with
  | nil => simp [mapInsert, mapLookup, Ne.symm h]
  | cons p rest ih =>
    obtain ⟨k'', v''⟩ := p
    by_cases hk : k'' = k
    · subst hk
      simp [mapInsert, mapLookup, Ne.symm h]
    · by_cases hk' : k'' = k'
      · simp [mapInsert, hk, mapLookup, hk', h]
      · simp [mapInsert, hk, mapLookup, hk', ih]

theorem mapLookup_prune {α : Type} (m : List (Nat × α)) (keep : Nat → Bool)
    (k : Nat) :
    mapLookup (mapPrune m keep) k =
      (if keep k then mapLookup m k else none) := by
  induction m with
  | nil => simp [mapPrune, mapLookup]
  | cons p rest ih =>
    obtain ⟨k', v'⟩ := p
    by_cases hkeep : keep k' = true
    · by_cases hk : k' = k
      · subst hk
        simp [mapPrune, hkeep, mapLookup]
      · simp [mapPrune, hkeep, mapLookup, hk, ih]
    · by_cases hk : k' = k
      · subst hk
        simp [mapPrune, hkeep, mapLookup, ih]
      · simp [mapPrune, hkeep, mapLookup, hk, ih]

/-! ### Lemmas about the scan loop and regossipAnnounce -/

theorem scanEncryptedEnodes_flag (selfAddress : Address)
    (regAndActiveVals : List Address) (parseV4 : Bytes → Option Nat)
    (entries : List encryptedEnode) :
    ∀ (destAddresses processedAddresses : List Address) (dups : Bool)
      (node : Option Nat) (dest' : List Address) (flag : Bool)
      (node' : Option Nat),
      scanEncryptedEnodes selfAddress regAndActiveVals parseV4 entries
          destAddresses processedAddresses dups node
        = .ok (dest', flag, node') →
      flag = (dups
        || hasDupsOrIrrelevant regAndActiveVals entries processedAddresses) := by
  induction entries with
  | nil =>
    intro d p dups node d' f n' h
    simp [scanEncryptedEnodes] at h
    simp [hasDupsOrIrrelevant, h.2.1.symm]
  | cons ee rest ih =>
    intro d p dups node d' f n' h
    by_cases hflag : (!(regAndActiveVals.contains ee.DecrypterAddress)
        || p.contains ee.DecrypterAddress) = true
    · rw [scanEncryptedEnodes, if_pos hflag] at h
      have hf := ih d p true node d' f n' h
      rw [hasDupsOrIrrelevant, if_pos hflag]
      simp at hf
      simp [hf]
    · rw [scanEncryptedEnodes, if_neg hflag] at h
      rw [hasDupsOrIrrelevant, if_neg hflag]
      by_cases hself : (ee.DecrypterAddress == selfAddress) = true
      · rw [if_pos hself] at h
        cases hparse : parseV4 ee.EncryptedEnodeURL with
        | none => rw [hparse] at h; exact absurd h (by simp)
        | some n =>
          rw [hparse] at h
          exact ih (d ++ [ee.DecrypterAddress]) (p ++ [ee.DecrypterAddress])
            dups (some n) d' f n' h
      · rw [if_neg hself] at h
        exact ih (d ++ [ee.DecrypterAddress]) (p ++ [ee.DecrypterAddress])
          dups node d' f n' h

theorem regossipAnnounce_cache_eq (st : BackendState) (msgAddress : Address)
    (payload : Bytes) (announcePayload : valEncryptedEnodes)
    (regAndActiveVals : List Address) (destAddresses : List Address)
    (now randInt : Nat) :
    (regossipAnnounce st msgAddress payload announcePayload regAndActiveVals
        destAddresses now randInt).1.cachedAnnounceMsgs
      = st.cachedAnnounceMsgs := by
  unfold regossipAnnounce
  dsimp only
  split
  · rfl
  · split
    · rfl
    · rfl

theorem regossipAnnounce_valEnodeSelf_eq (st : BackendState)
    (msgAddress : Address) (payload : Bytes)
    (announcePayload : valEncryptedEnodes) (regAndActiveVals : List Address)
    (destAddresses : List Address) (now randInt : Nat) :
    (regossipAnnounce st msgAddress payload announcePayload regAndActiveVals
        destAddresses now randInt).1.coreStarted = st.coreStarted
    ∧ (regossipAnnounce st msgAddress payload announcePayload regAndActiveVals
        destAddresses now randInt).1.selfAddress = st.selfAddress := by
  unfold regossipAnnounce
  dsimp only
  split
  · exact ⟨rfl, rfl⟩
  · split
    · exact ⟨rfl, rfl⟩
    · exact ⟨rfl, rfl⟩

theorem regossipAnnounce_throttle_lookup (st : BackendState)
    (msgAddress : Address) (payload : Bytes)
    (announcePayload : valEncryptedEnodes) (regAndActiveVals : List Address)
    (destAddresses : List Address) (now randInt : Nat) (a : Address)
    (g : AnnounceGossipTimestamp)
    (h : mapLookup (regossipAnnounce st msgAddress payload announcePayload
        regAndActiveVals destAddresses now randInt).1.lastAnnounceGossiped a
      = some g) :
    mapLookup st.lastAnnounceGossiped a = some g ∨ a = msgAddress := by
  by_cases ha : a = msgAddress
  · exact Or.inr ha
  · left
    revert h
    unfold regossipAnnounce
    dsimp only
    split
    · exact fun h => h
    · split
      · intro h
        dsimp only at h
        rw [mapLookup_prune] at h
        split at h
        · rwa [mapLookup_insert_ne _ _ _ _ ha] at h
        · exact absurd h (by simp)
      · intro h
        dsimp only at h
        rwa [mapLookup_insert_ne _ _ _ _ ha] at h

/-! ### Lemmas about handleAnnounceMsg -/

theorem handleAnnounceMsg_cache_strict (st : BackendState)
    (regAndActiveVals : List Address) (msgAddress : Address)
    (announcePayload : valEncryptedEnodes) (payload : Bytes)
    (parseV4 : Bytes → Option Nat) (now randInt : Nat) (a : Address)
    (eb ea : announceMsgCachedEntry)
    (hb : mapLookup st.cachedAnnounceMsgs a = some eb)
    (ha : mapLookup (handleAnnounceMsg st regAndActiveVals msgAddress
        announcePayload payload parseV4 now randInt).1.cachedAnnounceMsgs a
      = some ea) :
    ea = eb ∨ eb.MsgTimestamp < ea.MsgTimestamp := by
  revert ha
  unfold handleAnnounceMsg
  split
  · intro ha
    dsimp only at ha
    rw [hb, Option.some_inj] at ha
    exact Or.inl ha.symm
  · split
    · intro ha
      dsimp only at ha
      rw [hb, Option.some_inj] at ha
      exact Or.inl ha.symm
    · rename_i hcontains hold
      split
      · intro ha
        dsimp only at ha
        rw [hb, Option.some_inj] at ha
        exact Or.inl ha.symm
      · rename_i destAddresses flag node heq
        dsimp only
        split
        · intro ha
          cases node with
          | none =>
            dsimp only at ha
            rw [hb, Option.some_inj] at ha
            exact Or.inl ha.symm
          | some n =>
            dsimp only at ha
            rw [hb, Option.some_inj] at ha
            exact Or.inl ha.symm
        · intro ha
          rw [regossipAnnounce_cache_eq] at ha
          have hcache :
              (match node with
               | some n =>
                 { st with valEnodeTable :=
                             mapInsert st.valEnodeTable msgAddress
                               ⟨n, announcePayload.Timestamp⟩ }
               | none => st).cachedAnnounceMsgs = st.cachedAnnounceMsgs := by
            cases node <;> rfl
          rw [hcache] at ha
          rw [mapLookup_prune] at ha
          split at ha
          · by_cases haddr : a = msgAddress
            · subst haddr
              rw [mapLookup_insert_self, Option.some_inj] at ha
              have hlt : ¬ (announcePayload.Timestamp ≤ eb.MsgTimestamp) := by
                intro hle
                exact hold (by simp [cachedIsNewerOrSame, hb, hle])
              right
              rw [← ha]
              exact Nat.lt_of_not_le hlt
            · rw [mapLookup_insert_ne _ _ _ _ haddr] at ha
              rw [hb, Option.some_inj] at ha
              exact Or.inl ha.symm
          · exact absurd ha (by simp)

theorem handleAnnounceMsg_cache_mono (st : BackendState)
    (regAndActiveVals : List Address) (msgAddress : Address)
    (announcePayload : valEncryptedEnodes) (payload : Bytes)
    (parseV4 : Bytes → Option Nat) (now randInt : Nat) (a : Address)
    (eb ea : announceMsgCachedEntry)
    (hb : mapLookup st.cachedAnnounceMsgs a = some eb)
    (ha : mapLookup (handleAnnounceMsg st regAndActiveVals msgAddress
        announcePayload payload parseV4 now randInt).1.cachedAnnounceMsgs a
      = some ea) :
    eb.MsgTimestamp ≤ ea.MsgTimestamp := by
  rcases handleAnnounceMsg_cache_strict st regAndActiveVals msgAddress
    announcePayload payload parseV4 now randInt a eb ea hb ha with h | h
  · rw [h]
  · exact Nat.le_of_lt h

/-! ### Lemmas about the frequency machine, the prune count, and the
request list -/

theorem iterTicks_highFreqAfter (numPeers : Nat) :
    ∀ k, k ≤ 10 →
      iterTicks ⟨.HighFreqAfterFirstPeerState, 0, HighFreqTickerDuration⟩
          numPeers k
        = ⟨.HighFreqAfterFirstPeerState, k, HighFreqTickerDuration⟩ := by
  intro k
  induction k with
  | zero => intro _; rfl
  | succ n ih =>
    intro h
    have hn : n ≤ 10 := Nat.le_of_succ_le h
    have hlt : ¬ (n ≥ 10) := by omega
    rw [iterTicks, ih hn]
    simp [gossipTick, hlt]

theorem pruneFireCount_succ (n : Nat) :
    pruneFireCount (n + 1)
      = pruneFireCount n + (if n % 100 ≤ 5 then 1 else 0) := by
  unfold pruneFireCount
  rw [Finset.range_succ, Finset.filter_insert]
  by_cases h : pruneFires n = true
  · rw [if_pos h, Finset.card_insert_of_not_mem (by simp)]
    have h5 : n % 100 ≤ 5 := by simpa [pruneFires] using h
    rw [if_pos h5]
  · rw [if_neg h]
    have h5 : ¬ (n % 100 ≤ 5) := by simpa [pruneFires] using h
    rw [if_neg h5, Nat.add_zero]

theorem pruneFireCount_formula (n : Nat) :
    pruneFireCount n = 6 * (n / 100) + min (n % 100) 6 := by
  induction n with
  | zero => simp [pruneFireCount]
  | succ n ih =>
    rw [pruneFireCount_succ, ih]
    by_cases h5 : n % 100 ≤ 5
    · rw [if_pos h5]
      omega
    · rw [if_neg h5]
      omega

theorem mem_announcesToRequestOf
    (cachedAnnounceMsgs : List (Address × announceMsgCachedEntry))
    (regAndActiveVals : List Address) :
    ∀ (avs : List announceVersion) (a : Address),
      a ∈ announcesToRequestOf cachedAnnounceMsgs regAndActiveVals avs ↔
        ∃ av, av ∈ avs ∧ av.ValAddress = a
          ∧ regAndActiveVals.contains a = true
          ∧ cacheLacksOrOlder cachedAnnounceMsgs a av.AnnounceMsgTimestamp
              = true := by
  intro avs
  induction avs with
  | nil =>
    intro a
    simp [announcesToRequestOf]
  | cons av rest ih =>
    intro a
    by_cases hv : regAndActiveVals.contains av.ValAddress = true
    · by_cases hq : cacheLacksOrOlder cachedAnnounceMsgs av.ValAddress
          av.AnnounceMsgTimestamp = true
      · rw [announcesToRequestOf,
            if_neg (by simp [List.mem_of_elem_eq_true hv]), if_pos hq]
        constructor
        · intro h
          rcases List.mem_cons.mp h with h | h
          · exact ⟨av, List.mem_cons_self _ _, h.symm, h ▸ hv, h ▸ hq⟩
          · rcases (ih a).mp h with ⟨av', hmem, heq, hcont, hlack⟩
            exact ⟨av', List.mem_cons_of_mem _ hmem, heq, hcont, hlack⟩
        · intro ⟨av', hmem, heq, hcont, hlack⟩
          rcases List.mem_cons.mp hmem with h | h
          · subst h
            exact List.mem_cons.mpr (Or.inl heq.symm)
          · exact List.mem_cons_of_mem _ ((ih a).mpr ⟨av', h, heq, hcont, hlack⟩)
      · rw [announcesToRequestOf,
            if_neg (by simp [List.mem_of_elem_eq_true hv]), if_neg hq]
        constructor
        · intro h
          rcases (ih a).mp h with ⟨av', hmem, heq, hcont, hlack⟩
          exact ⟨av', List.mem_cons_of_mem _ hmem, heq, hcont, hlack⟩
        · intro ⟨av', hmem, heq, hcont, hlack⟩
          rcases List.mem_cons.mp hmem with h | h
          · subst h
            exact absurd (heq ▸ hlack) hq
          · exact (ih a).mpr ⟨av', h, heq, hcont, hlack⟩
    · rw [announcesToRequestOf, if_pos (by simp [Bool.not_eq_true] at hv ⊢; exact hv)]
      constructor
      · intro h
        rcases (ih a).mp h with ⟨av', hmem, heq, hcont, hlack⟩
        exact ⟨av', List.mem_cons_of_mem _ hmem, heq, hcont, hlack⟩
      · intro ⟨av', hmem, heq, hcont, hlack⟩
        rcases List.mem_cons.mp hmem with h | h
        · subst h
          exact absurd (heq ▸ hcont) hv
        · exact (ih a).mpr ⟨av', h, heq, hcont, hlack⟩

/-! ### Claim C5 -/

/-- C5: Stale-announce rejection.  For every announce from a validator-set
member handled by `handleAnnounceMsg`, if the cache already holds an entry
for the sender whose `MsgTimestamp` is greater than or equal to the
payload's `Timestamp`, the handler fails with the OldAnnounce error and
leaves all state unchanged - the returned state is the input state, so the
cache entry is untouched and no validator-endpoint-table upsert occurred -
and emits no effect, in particular no multicast. -/
theorem c5_stale_announce_rejection (st : BackendState)
    (regAndActiveVals : List Address) (msgAddress : Address)
    (announcePayload : valEncryptedEnodes) (payload : Bytes)
    (parseV4 : Bytes → Option Nat) (now randInt : Nat)
    (e : announceMsgCachedEntry)
    (hmem : regAndActiveVals.contains msgAddress = true)
    (hcached : mapLookup st.cachedAnnounceMsgs msgAddress = some e)
    (hstale : announcePayload.Timestamp ≤ e.MsgTimestamp) :
    handleAnnounceMsg st regAndActiveVals msgAddress announcePayload payload
        parseV4 now randInt
      = (st, [], some .errOldAnnounceMessage) := by
  unfold handleAnnounceMsg
  rw [if_neg (by simp [List.mem_of_elem_eq_true hmem])]
  rw [if_pos (by simp [cachedIsNewerOrSame, hcached, hstale])]

/-- C5 witness: a concrete stale announce (timestamp 100 against a cached
entry with timestamp 100) is rejected with OldAnnounce and no state change. -/
theorem c5_witness :
    ([4, 1] : List Address).contains 4 = true
    ∧ mapLookup ([(4, ⟨100, [7]⟩)] : List (Address × announceMsgCachedEntry)) 4
        = some ⟨100, [7]⟩
    ∧ (100 : Nat) ≤ 100
    ∧ handleAnnounceMsg ⟨[(4, ⟨100, [7]⟩)], [], [], true, 1⟩ [4, 1] 4
        ⟨4, [], 0, 100⟩ [8] (fun _ => none) 0 50
      = (⟨[(4, ⟨100, [7]⟩)], [], [], true, 1⟩, [],
         some .errOldAnnounceMessage) :=
  ⟨rfl, rfl, by decide,
   c5_stale_announce_rejection ⟨[(4, ⟨100, [7]⟩)], [], [], true, 1⟩ [4, 1] 4
     ⟨4, [], 0, 100⟩ [8] (fun _ => none) 0 50 ⟨100, [7]⟩ rfl rfl
     (by decide)⟩

/-! ### Claim C7 -/

/-- C7: Version-reconciliation request rule.  For every AnnounceVersions
payload handled, an address is in the GetAnnounces request list if and only
if some received record carries it, it is in the current
registered-or-active validator set, and the local cache either has no entry
for it or holds a strictly smaller timestamp than the received
`AnnounceMsgTimestamp`; and the handler sends exactly one GetAnnounces
message, carrying that list, if and only if the list is non-empty. -/
theorem c7_version_reconciliation_request_rule (st : BackendState)
    (regAndActiveVals : List Address)
    (announceVersions : List announceVersion) (decodeFailed : Bool)
    (a : Address) :
    (a ∈ announcesToRequestOf st.cachedAnnounceMsgs regAndActiveVals
        announceVersions ↔
      ∃ av, av ∈ announceVersions ∧ av.ValAddress = a
        ∧ regAndActiveVals.contains a = true
        ∧ cacheLacksOrOlder st.cachedAnnounceMsgs a av.AnnounceMsgTimestamp
            = true)
    ∧ (handleAnnounceVersionsMsg st regAndActiveVals announceVersions
          decodeFailed).2.1
      = (if announcesToRequestOf st.cachedAnnounceMsgs regAndActiveVals
              announceVersions
            = [] then []
         else [Effect.sendGetAnnounces (announcesToRequestOf
           st.cachedAnnounceMsgs regAndActiveVals announceVersions)]) := by
  refine ⟨mem_announcesToRequestOf _ _ _ _, ?_⟩
  unfold handleAnnounceVersionsMsg
  dsimp only
  cases h : announcesToRequestOf st.cachedAnnounceMsgs regAndActiveVals
      announceVersions with
  | nil => simp
  | cons x xs => simp

/-! ### Claim C8 -/

/-- C8: Ten-tick frequency decay.  Starting in
`HighFreqAfterFirstPeerState` with the tick counter at 0, the state is
unchanged for the first 10 gossip ticks (the counter is incremented after
each transition check), the transition to `LowFreqState` fires on the 11th
tick - the first tick at which the counter is at least 10 - and an
announce is emitted after the state evaluation on every gossip tick in
every state. -/
theorem c8_ten_tick_frequency_decay :
    (∀ (numPeers k : Nat), k ≤ 10 →
      (iterTicks ⟨.HighFreqAfterFirstPeerState, 0, HighFreqTickerDuration⟩
          numPeers k).freqState
        = .HighFreqAfterFirstPeerState)
    ∧ (∀ numPeers : Nat,
      (iterTicks ⟨.HighFreqAfterFirstPeerState, 0, HighFreqTickerDuration⟩
          numPeers 11).freqState
        = .LowFreqState)
    ∧ (∀ (ls : AnnounceLoopState) (numPeers : Nat),
        (gossipTick ls numPeers).2 = true) := by
  refine ⟨?_, ?_, ?_⟩
  · intro p k hk
    rw [iterTicks_highFreqAfter p k hk]
  · intro p
    have h11 : iterTicks
        ⟨.HighFreqAfterFirstPeerState, 0, HighFreqTickerDuration⟩ p 11
      = (gossipTick (iterTicks
          ⟨.HighFreqAfterFirstPeerState, 0, HighFreqTickerDuration⟩ p 10)
          p).1 := rfl
    rw [h11, iterTicks_highFreqAfter p 10 (by omega)]
    simp [gossipTick]
  · intro ls p
    rfl

/-- C8 witness: concrete instances - after 3 ticks the state is still
high-frequency, after 11 ticks it is low-frequency, and a tick in
low-frequency state emits. -/
theorem c8_witness :
    ((3 : Nat) ≤ 10
      ∧ (iterTicks ⟨.HighFreqAfterFirstPeerState, 0, HighFreqTickerDuration⟩
          1 3).freqState = .HighFreqAfterFirstPeerState)
    ∧ (iterTicks ⟨.HighFreqAfterFirstPeerState, 0, HighFreqTickerDuration⟩
        1 11).freqState = .LowFreqState
    ∧ (gossipTick ⟨.LowFreqState, 0, HighFreqTickerDuration⟩ 0).2 = true :=
  ⟨⟨by decide, c8_ten_tick_frequency_decay.1 1 3 (by decide)⟩,
   c8_ten_tick_frequency_decay.2.1 1,
   c8_ten_tick_frequency_decay.2.2 ⟨.LowFreqState, 0, HighFreqTickerDuration⟩ 0⟩

/-! ### Claim C10 -/

/-- C10: the GetAnnounceVersions handler ignores its payload.  For every
payload the handler returns no error and no state change, and sends the
peer exactly one AnnounceVersions message holding exactly one
`announceVersion` record per cache entry, pairing each cached address with
its cached `MsgTimestamp`. -/
theorem c10_get_announce_versions_ignores_payload (st : BackendState)
    (payload : Bytes) :
    handleGetAnnounceVersionsMsg st payload
      = (st,
         [Effect.sendAnnounceVersions (st.cachedAnnounceMsgs.map
           (fun p => { ValAddress := p.1,
                       AnnounceMsgTimestamp := p.2.MsgTimestamp }))],
         none)
    ∧ (st.cachedAnnounceMsgs.map
        (fun p => ({ ValAddress := p.1,
                     AnnounceMsgTimestamp := p.2.MsgTimestamp } :
          announceVersion))).length
      = st.cachedAnnounceMsgs.length
    ∧ ∀ (a : Address) (ts : Nat),
        ((⟨a, ts⟩ : announceVersion) ∈ st.cachedAnnounceMsgs.map
          (fun p => ({ ValAddress := p.1,
                       AnnounceMsgTimestamp := p.2.MsgTimestamp } :
            announceVersion))
        ↔ ∃ e : announceMsgCachedEntry,
            (a, e) ∈ st.cachedAnnounceMsgs ∧ e.MsgTimestamp = ts) := by
  refine ⟨rfl, List.length_map _ _, ?_⟩
  intro a ts
  constructor
  · intro h
    rcases List.mem_map.mp h with ⟨⟨a', e⟩, hmem, heq⟩
    injection heq with h1 h2
    subst h1
    exact ⟨e, hmem, h2⟩
  · rintro ⟨e, hmem, hts⟩
    exact List.mem_map.mpr ⟨(a, e), hmem, by simp [hts]⟩

/-! ### Claim C1 -/

/-- C1 counterexample: the claim fails as stated.  `gossipAnnounce` admits
this node's own announce to the cache unconditionally (source lines
297-301, no comparison against the cached timestamp), so a sequence of two
own-announce admissions with timestamps 5 and then 3 leaves the cache at
timestamp 3, which is smaller than the previously stored 5 and smaller
than the largest timestamp ever admitted. -/
theorem c1_counterexample :
    mapLookup (gossipAnnounce ⟨[], [], [], false, 1⟩ ⟨1, [], 0, 5⟩ [5]
        [1]).1.cachedAnnounceMsgs 1
      = some ⟨5, [5]⟩
    ∧ mapLookup (gossipAnnounce
          (gossipAnnounce ⟨[], [], [], false, 1⟩ ⟨1, [], 0, 5⟩ [5] [1]).1
          ⟨1, [], 0, 3⟩ [3] [1]).1.cachedAnnounceMsgs 1
      = some ⟨3, [3]⟩
    ∧ (3 : Nat) < 5 :=
  ⟨rfl, rfl, by decide⟩

/-- C1 (amended): restricted to `handleAnnounceMsg` invocations the cached
timestamp is monotone: (i) along any run of handle events during which the
address stays in the cache (it is never removed by the per-admission
prune), the cached `MsgTimestamp` never decreases, and (ii) any single
`handleAnnounceMsg` invocation either leaves the entry unchanged or
replaces it with a strictly larger timestamp, so an admission overwriting
the entry strictly exceeds the previously cached value.  `gossipAnnounce`
overwrites this node's own entry unconditionally, so its admissions may
lower the stored timestamp, and after a prune evicts an address, a later
readmission may also carry a lower timestamp. -/
theorem c1_cache_timestamp_monotonicity :
    (∀ (evs : List GossipEvent) (st : BackendState) (a : Address)
        (eb ea : announceMsgCachedEntry),
      (∀ e ∈ evs, isHandleAnnounceEv e = true) →
      presentAlongRun st a evs = true →
      mapLookup st.cachedAnnounceMsgs a = some eb →
      mapLookup (gossipRun st evs).cachedAnnounceMsgs a = some ea →
      eb.MsgTimestamp ≤ ea.MsgTimestamp)
    ∧ (∀ (st : BackendState) (regAndActiveVals : List Address)
        (msgAddress : Address) (announcePayload : valEncryptedEnodes)
        (payload : Bytes) (parseV4 : Bytes → Option Nat)
        (now randInt : Nat) (a : Address)
        (eb ea : announceMsgCachedEntry),
      mapLookup st.cachedAnnounceMsgs a = some eb →
      mapLookup (handleAnnounceMsg st regAndActiveVals msgAddress
          announcePayload payload parseV4 now
          randInt).1.cachedAnnounceMsgs a
        = some ea →
      ea = eb ∨ eb.MsgTimestamp < ea.MsgTimestamp) := by
  constructor
  · intro evs
    induction evs with
    | nil =>
      intro st a eb ea _ _ hb ha
      rw [gossipRun, hb, Option.some_inj] at ha
      exact ha ▸ Nat.le_refl _
    | cons e rest ih =>
      intro st a eb ea hall hpres hb ha
      have he := hall e (List.mem_cons_self _ _)
      cases e with
      | gossipOwnEv v ann p => simp [isHandleAnnounceEv] at he
      | handleAnnounceEv v m ann p f now r =>
        rw [presentAlongRun, Bool.and_eq_true] at hpres
        obtain ⟨h1, h2⟩ := hpres
        obtain ⟨e1, he1⟩ : ∃ e1,
            mapLookup (gossipStep st
              (.handleAnnounceEv v m ann p f now r)).cachedAnnounceMsgs a
            = some e1 := by
          cases hm : mapLookup (gossipStep st
              (.handleAnnounceEv v m ann p f now r)).cachedAnnounceMsgs a with
          | none => rw [hm] at h1; simp at h1
          | some x => exact ⟨x, rfl⟩
        have step : eb.MsgTimestamp ≤ e1.MsgTimestamp :=
          handleAnnounceMsg_cache_mono st v m ann p f now r a eb e1 hb he1
        have tail : e1.MsgTimestamp ≤ ea.MsgTimestamp :=
          ih (gossipStep st (.handleAnnounceEv v m ann p f now r)) a e1 ea
            (fun x hx => hall x (List.mem_cons_of_mem _ hx)) h2 he1 ha
        exact Nat.le_trans step tail
  · intro st v m ann p f now r a eb ea hb ha
    exact handleAnnounceMsg_cache_strict st v m ann p f now r a eb ea hb ha

/-- C1 witness: one concrete handle-admission raising a cached timestamp
from 5 to 7, with the address present throughout the run; the strict
clause yields that the overwriting admission strictly raised it. -/
theorem c1_witness :
    presentAlongRun ⟨[(1, ⟨5, [9]⟩)], [], [], false, 2⟩ 1
        [.handleAnnounceEv [1] 1 ⟨1, [], 0, 7⟩ [4] (fun _ => none) 0 50]
      = true
    ∧ mapLookup
        (⟨[(1, ⟨5, [9]⟩)], [], [], false, 2⟩ :
          BackendState).cachedAnnounceMsgs 1 = some ⟨5, [9]⟩
    ∧ mapLookup (gossipRun ⟨[(1, ⟨5, [9]⟩)], [], [], false, 2⟩
        [.handleAnnounceEv [1] 1 ⟨1, [], 0, 7⟩ [4]
          (fun _ => none) 0 50]).cachedAnnounceMsgs 1 = some ⟨7, [4]⟩
    ∧ (5 : Nat) ≤ 7
    ∧ ((⟨7, [4]⟩ : announceMsgCachedEntry) = ⟨5, [9]⟩ ∨ (5 : Nat) < 7) :=
  ⟨rfl, rfl, rfl,
   c1_cache_timestamp_monotonicity.1
     [.handleAnnounceEv [1] 1 ⟨1, [], 0, 7⟩ [4] (fun _ => none) 0 50]
     ⟨[(1, ⟨5, [9]⟩)], [], [], false, 2⟩ 1 ⟨5, [9]⟩ ⟨7, [4]⟩
     (fun e he => by rw [List.mem_singleton] at he; subst he; rfl)
     rfl rfl rfl,
   c1_cache_timestamp_monotonicity.2
     ⟨[(1, ⟨5, [9]⟩)], [], [], false, 2⟩ [1] 1 ⟨1, [], 0, 7⟩ [4]
     (fun _ => none) 0 50 1 ⟨5, [9]⟩ ⟨7, [4]⟩ rfl rfl⟩

/-! ### Claim C2 -/

/-- C2 counterexample: the claim fails as stated.  The duplicate scan runs
only under `sb.coreStarted && regAndActiveVals[sb.Address()]` (source line
415); with `coreStarted = false` a message whose `EncryptedEnodes` repeats
the recipient address 2 is nevertheless admitted to the cache and
regossiped (one multicast emitted). -/
theorem c2_counterexample :
    hasDupsOrIrrelevant [1, 2] [⟨2, []⟩, ⟨2, []⟩] [] = true
    ∧ (handleAnnounceMsg ⟨[], [], [], false, 1⟩ [1, 2] 1
        ⟨1, [⟨2, []⟩, ⟨2, []⟩], 0, 5⟩ [9]
        (fun _ => none) 0 50).1.cachedAnnounceMsgs = [(1, ⟨5, [9]⟩)]
    ∧ (handleAnnounceMsg ⟨[], [], [], false, 1⟩ [1, 2] 1
        ⟨1, [⟨2, []⟩, ⟨2, []⟩], 0, 5⟩ [9]
        (fun _ => none) 0 50).2.1 = [Effect.multicastAnnounce [9]] :=
  ⟨rfl, rfl, rfl⟩

/-- C2 (amended): when this node's core is started and this node is in the
registered-or-active validator set - the condition guarding the scan - a
message whose `EncryptedEnodes` contains a duplicate or
not-in-validator-set recipient entry is not admitted to the cache and not
regossiped: the handler leaves the announce cache and the regossip
throttle unchanged and emits no effect. -/
theorem c2_duplicate_gate (st : BackendState) (regAndActiveVals : List Address)
    (msgAddress : Address) (announcePayload : valEncryptedEnodes)
    (payload : Bytes) (parseV4 : Bytes → Option Nat) (now randInt : Nat)
    (hcore : st.coreStarted = true)
    (hself : regAndActiveVals.contains st.selfAddress = true)
    (hdup : hasDupsOrIrrelevant regAndActiveVals
        announcePayload.EncryptedEnodes [] = true) :
    (handleAnnounceMsg st regAndActiveVals msgAddress announcePayload payload
        parseV4 now randInt).1.cachedAnnounceMsgs = st.cachedAnnounceMsgs
    ∧ (handleAnnounceMsg st regAndActiveVals msgAddress announcePayload
        payload parseV4 now randInt).1.lastAnnounceGossiped
      = st.lastAnnounceGossiped
    ∧ (handleAnnounceMsg st regAndActiveVals msgAddress announcePayload
        payload parseV4 now randInt).2.1 = [] := by
  unfold handleAnnounceMsg
  split
  · exact ⟨rfl, rfl, rfl⟩
  · split
    · exact ⟨rfl, rfl, rfl⟩
    · rw [if_pos (by rw [hcore, hself]; rfl)]
      cases hscan : scanEncryptedEnodes st.selfAddress regAndActiveVals
          parseV4 announcePayload.EncryptedEnodes [] [] false none with
      | error e => exact ⟨rfl, rfl, rfl⟩
      | ok t =>
        obtain ⟨d, flag, n⟩ := t
        have hf := scanEncryptedEnodes_flag st.selfAddress regAndActiveVals
          parseV4 announcePayload.EncryptedEnodes [] [] false none d flag n
          hscan
        rw [Bool.false_or, hdup] at hf
        dsimp only
        rw [hf]
        cases n with
        | none => exact ⟨rfl, rfl, rfl⟩
        | some nn => exact ⟨rfl, rfl, rfl⟩

/-- C2 witness: a concrete duplicate-recipient message handled with core
started and self in the validator set leaves cache and throttle unchanged
and emits nothing. -/
theorem c2_witness :
    hasDupsOrIrrelevant [1, 2]
        (valEncryptedEnodes.EncryptedEnodes ⟨2, [⟨2, [0]⟩, ⟨2, [0]⟩], 0, 5⟩) []
      = true
    ∧ (handleAnnounceMsg ⟨[], [], [], true, 1⟩ [1, 2] 2
        ⟨2, [⟨2, [0]⟩, ⟨2, [0]⟩], 0, 5⟩ [9]
        (fun _ => none) 0 50).1.cachedAnnounceMsgs = []
    ∧ (handleAnnounceMsg ⟨[], [], [], true, 1⟩ [1, 2] 2
        ⟨2, [⟨2, [0]⟩, ⟨2, [0]⟩], 0, 5⟩ [9]
        (fun _ => none) 0 50).2.1 = [] :=
  ⟨rfl,
   (c2_duplicate_gate ⟨[], [], [], true, 1⟩ [1, 2] 2
     ⟨2, [⟨2, [0]⟩, ⟨2, [0]⟩], 0, 5⟩ [9] (fun _ => none) 0 50
     rfl rfl rfl).1,
   (c2_duplicate_gate ⟨[], [], [], true, 1⟩ [1, 2] 2
     ⟨2, [⟨2, [0]⟩, ⟨2, [0]⟩], 0, 5⟩ [9] (fun _ => none) 0 50
     rfl rfl rfl).2.2⟩

/-! ### Claim C3 -/

/-- C3 counterexample: the claim fails as stated.  On malformed RLP the
source only logs and continues (source lines 585-587), and the decoder may
leave a partially decoded slice; with the partial slice `[⟨7, 9⟩]` and the
decode-error flag set, the handler still sends a GetAnnounces for address
7 - an outbound send on a malformed payload. -/
theorem c3_counterexample :
    (handleAnnounceVersionsMsg ⟨[], [], [], true, 1⟩ [7] [⟨7, 9⟩] true).2.1
      = [Effect.sendGetAnnounces [7]]
    ∧ (handleAnnounceVersionsMsg ⟨[], [], [], true, 1⟩ [7] [⟨7, 9⟩]
        true).2.1 ≠ [] :=
  ⟨rfl, by decide⟩

/-- C3 (amended): the AnnounceVersions handler ignores the decode error -
its outcome depends only on the (possibly partially) decoded slice; it
never modifies state and never returns an error, and when nothing was
decoded (empty slice) it performs no outbound send; but a malformed
payload whose partial decode contains qualifying entries still triggers a
GetAnnounces send. -/
theorem c3_decode_error_leniency (st : BackendState)
    (regAndActiveVals : List Address)
    (announceVersions : List announceVersion) (d1 d2 : Bool) :
    handleAnnounceVersionsMsg st regAndActiveVals announceVersions d1
      = handleAnnounceVersionsMsg st regAndActiveVals announceVersions d2
    ∧ (handleAnnounceVersionsMsg st regAndActiveVals announceVersions d1).1
      = st
    ∧ (handleAnnounceVersionsMsg st regAndActiveVals announceVersions
        d1).2.2 = none
    ∧ (handleAnnounceVersionsMsg st regAndActiveVals [] d1).2.1 = [] := by
  refine ⟨rfl, ?_, ?_, rfl⟩
  · unfold handleAnnounceVersionsMsg
    dsimp only
    split
    · rfl
    · rfl
  · unfold handleAnnounceVersionsMsg
    dsimp only
    split
    · rfl
    · rfl

/-! ### Claim C4 -/

/-- C4 counterexample: the claim fails as stated.  The guard
`(mrand.Int() % 100) <= 5` admits the six residues 0..5, so over the
uniform range `[0, 2^63)` the fraction of firing draws is not 1/20. -/
theorem c4_counterexample :
    (pruneFireCount mrandIntRange : ℚ) / (mrandIntRange : ℚ) ≠ 1 / 20 := by
  rw [pruneFireCount_formula]
  norm_num [mrandIntRange]

/-- C4 (amended): the full-sweep prune fires on exactly
553402322211286554 of the 2^63 equally likely draws - the guard admits
residues 0..5 modulo 100, six residues rather than five - so the firing
probability is 553402322211286554 / 2^63, about 0.06 (roughly 3/50), not
1/20. -/
theorem c4_prune_rate :
    pruneFireCount mrandIntRange = 553402322211286554
    ∧ (pruneFireCount mrandIntRange : ℚ) / (mrandIntRange : ℚ)
      = 553402322211286554 / 9223372036854775808 := by
  have h : pruneFireCount mrandIntRange = 553402322211286554 := by
    rw [pruneFireCount_formula]
    norm_num [mrandIntRange]
  refine ⟨h, ?_⟩
  rw [h]
  norm_num [mrandIntRange]

/-! ### Claim C6 -/

/-- C6 counterexample: the claim fails as stated.  Three successive
regossips for address 5 at wall times 0, 10 and 20 all multicast: the
first and third carry identical `enodeURLHash` (1) and identical
destination list `[2]` (hence identical `destAddressesHash`), yet are only
20 seconds apart - the middle regossip, carrying a different
`enodeURLHash` (9), overwrote the throttle entry and defeated the
60-second suppression for the identical pair. -/
theorem c6_counterexample :
    (regossipAnnounce ⟨[], [], [], false, 1⟩ 5 [9] ⟨5, [], 1, 100⟩ [5, 2]
        [2] 0 50).2
      = [Effect.multicastAnnounce [9]]
    ∧ (regossipAnnounce
        (regossipAnnounce ⟨[], [], [], false, 1⟩ 5 [9] ⟨5, [], 1, 100⟩
          [5, 2] [2] 0 50).1
        5 [9] ⟨5, [], 9, 101⟩ [5, 2] [2] 10 50).2
      = [Effect.multicastAnnounce [9]]
    ∧ (regossipAnnounce
        (regossipAnnounce
          (regossipAnnounce ⟨[], [], [], false, 1⟩ 5 [9] ⟨5, [], 1, 100⟩
            [5, 2] [2] 0 50).1
          5 [9] ⟨5, [], 9, 101⟩ [5, 2] [2] 10 50).1
        5 [9] ⟨5, [], 1, 102⟩ [5, 2] [2] 20 50).2
      = [Effect.multicastAnnounce [9]]
    ∧ (⟨5, [], 1, 100⟩ : valEncryptedEnodes).EnodeURLHash
      = (⟨5, [], 1, 102⟩ : valEncryptedEnodes).EnodeURLHash
    ∧ (20 : Nat) - 0 < 60 :=
  ⟨rfl, rfl, rfl, rfl, by decide⟩

/-- C6 (amended): the throttle suppression itself is sound, in both
directions.  For a regossip attempt for an address whose throttle entry
records the identical `enodeURLHash` and the identical
`destAddressesHash`: (i) if the recorded time is less than 60 seconds
before now, the attempt is suppressed - no multicast is performed and the
state is unchanged; (ii) conversely, if the attempt does multicast, at
least 60 seconds have passed since the time recorded in the current
throttle entry.  The stronger original spacing claim fails: the 60-second
bound between two successful identical-hash regossips of A holds only
while the entry written by the first is still in place at the second - an
intervening different-hash regossip of A overwrites it, and the
probabilistic prune during any regossip can delete it once A has left the
validator set, in either case allowing identical-hash regossips of A less
than 60 seconds apart. -/
theorem c6_throttle_suppression (st : BackendState) (msgAddress : Address)
    (payload : Bytes) (announcePayload : valEncryptedEnodes)
    (regAndActiveVals destAddresses : List Address) (now randInt : Nat)
    (g : AnnounceGossipTimestamp)
    (hg : mapLookup st.lastAnnounceGossiped msgAddress = some g)
    (h1 : g.enodeURLHash = announcePayload.EnodeURLHash)
    (h2 : g.destAddressesHash = RLPHashAddrList (sortAddrs destAddresses)) :
    (now - g.timestamp < 60 →
      regossipAnnounce st msgAddress payload announcePayload
        regAndActiveVals destAddresses now randInt = (st, []))
    ∧ ((regossipAnnounce st msgAddress payload announcePayload
          regAndActiveVals destAddresses now randInt).2 ≠ [] →
        60 ≤ now - g.timestamp) := by
  have hsup : now - g.timestamp < 60 →
      regossipAnnounce st msgAddress payload announcePayload
        regAndActiveVals destAddresses now randInt = (st, []) := by
    intro h3
    unfold regossipAnnounce
    dsimp only
    rw [if_pos (by simp [throttleSuppresses, hg, h1, h2, h3])]
  refine ⟨hsup, fun hmult => ?_⟩
  by_cases h3 : now - g.timestamp < 60
  · exact absurd (by rw [hsup h3]) hmult
  · exact Nat.le_of_not_lt h3

/-- C6 witness: a concrete attempt 30 seconds after the recorded gossip
with identical hashes is suppressed with no state change and no
multicast. -/
theorem c6_witness :
    mapLookup
        ([(5, ⟨1, 0, RLPHashAddrList (sortAddrs [2])⟩)] :
          List (Address × AnnounceGossipTimestamp)) 5
      = some ⟨1, 0, RLPHashAddrList (sortAddrs [2])⟩
    ∧ (30 : Nat) - 0 < 60
    ∧ regossipAnnounce
        ⟨[], [(5, ⟨1, 0, RLPHashAddrList (sortAddrs [2])⟩)], [], false, 1⟩
        5 [9] ⟨5, [], 1, 100⟩ [5, 2] [2] 30 50
      = (⟨[], [(5, ⟨1, 0, RLPHashAddrList (sortAddrs [2])⟩)], [], false, 1⟩,
         []) :=
  ⟨rfl, by decide,
   (c6_throttle_suppression
     ⟨[], [(5, ⟨1, 0, RLPHashAddrList (sortAddrs [2])⟩)], [], false, 1⟩
     5 [9] ⟨5, [], 1, 100⟩ [5, 2] [2] 30 50
     ⟨1, 0, RLPHashAddrList (sortAddrs [2])⟩ rfl rfl rfl).1 (by decide)⟩

/-! ### Claim C9 -/

/-- C9 counterexample: the claim fails as stated.  A reachable two-event
run violates the subset invariant: address 2 announces under validator set
`[1, 2]` (entering cache and throttle), then address 1 announces under
validator set `[1]` - the per-admission cache prune evicts 2 from the
cache, while the throttle prune, being probabilistic, does not fire
(draw 50), leaving 2 in the throttle but not in the cache. -/
theorem c9_counterexample :
    (mapLookup (gossipRun ⟨[], [], [], false, 1⟩
        [.handleAnnounceEv [1, 2] 2 ⟨2, [], 0, 5⟩ [1] (fun _ => none) 0 50,
         .handleAnnounceEv [1] 1 ⟨1, [], 0, 5⟩ [2]
           (fun _ => none) 10 50]).lastAnnounceGossiped 2).isSome = true
    ∧ mapLookup (gossipRun ⟨[], [], [], false, 1⟩
        [.handleAnnounceEv [1, 2] 2 ⟨2, [], 0, 5⟩ [1] (fun _ => none) 0 50,
         .handleAnnounceEv [1] 1 ⟨1, [], 0, 5⟩ [2]
           (fun _ => none) 10 50]).cachedAnnounceMsgs 2
      = none :=
  ⟨rfl, rfl⟩

/-- C9 (amended): the subset relation holds at throttle-write time - after
any single event of the gossip engine, every throttle entry that is new or
updated in that step belongs to an address that is present in the cache in
the post-state; entries merely surviving from before may outlive their
cache entry, because the cache is pruned on every admission while the
throttle is pruned only probabilistically. -/
theorem c9_throttle_subset_of_cache (st : BackendState) (e : GossipEvent)
    (a : Address) (g : AnnounceGossipTimestamp)
    (h : mapLookup (gossipStep st e).lastAnnounceGossiped a = some g) :
    mapLookup st.lastAnnounceGossiped a = some g
    ∨ (mapLookup (gossipStep st e).cachedAnnounceMsgs a).isSome = true := by
  cases e with
  | gossipOwnEv v ann p => exact Or.inl h
  | handleAnnounceEv v m ann p f now r =>
    revert h
    dsimp only [gossipStep]
    unfold handleAnnounceMsg
    split
    · exact fun h => Or.inl h
    · split
      · exact fun h => Or.inl h
      · rename_i hcontains hold
        split
        · exact fun h => Or.inl h
        · rename_i destAddresses flag node heq
          dsimp only
          cases node with
          | none =>
            split
            · exact fun h => Or.inl h
            · intro h
              rcases regossipAnnounce_throttle_lookup _ _ _ _ _ _ _ _ _ _ h
                with hl | ha
              · exact Or.inl hl
              · subst ha
                right
                rw [regossipAnnounce_cache_eq]
                have hc : v.contains a = true := by
                  cases hb : v.contains a with
                  | true => rfl
                  | false => exact absurd (by rw [hb]; rfl) hcontains
                dsimp only
                rw [mapLookup_prune, if_pos hc, mapLookup_insert_self]
                rfl
          | some nn =>
            split
            · exact fun h => Or.inl h
            · intro h
              rcases regossipAnnounce_throttle_lookup _ _ _ _ _ _ _ _ _ _ h
                with hl | ha
              · exact Or.inl hl
              · subst ha
                right
                rw [regossipAnnounce_cache_eq]
                have hc : v.contains a = true := by
                  cases hb : v.contains a with
                  | true => rfl
                  | false => exact absurd (by rw [hb]; rfl) hcontains
                dsimp only
                rw [mapLookup_prune, if_pos hc, mapLookup_insert_self]
                rfl

/-- C9 witness: the first event of the counterexample run writes a
throttle entry for address 2, and address 2 is indeed in the cache right
after that step. -/
theorem c9_witness :
    mapLookup (gossipStep ⟨[], [], [], false, 1⟩
        (.handleAnnounceEv [1, 2] 2 ⟨2, [], 0, 5⟩ [1]
          (fun _ => none) 0 50)).lastAnnounceGossiped 2
      = some ⟨0, 0, RLPHashAddrList (sortAddrs [])⟩
    ∧ (mapLookup ([] : List (Address × AnnounceGossipTimestamp)) 2
          = some ⟨0, 0, RLPHashAddrList (sortAddrs [])⟩
      ∨ (mapLookup (gossipStep ⟨[], [], [], false, 1⟩
          (.handleAnnounceEv [1, 2] 2 ⟨2, [], 0, 5⟩ [1]
            (fun _ => none) 0 50)).cachedAnnounceMsgs 2).isSome = true) :=
  ⟨rfl,
   c9_throttle_subset_of_cache ⟨[], [], [], false, 1⟩
     (.handleAnnounceEv [1, 2] 2 ⟨2, [], 0, 5⟩ [1] (fun _ => none) 0 50)
     2 ⟨0, 0, RLPHashAddrList (sortAddrs [])⟩ rfl⟩

end CeloAnnounce
